import Mathlib

/-
  Verification development for the nbabel-rust N-body integrator.

  Shallow embedding of the two program variants:
  - src/main.rs  : threaded force engine (`acceleration`), static range
    partition over THREAD_COUNT = 8 workers, per-worker local buffers,
    channel reduction;
  - src/main2.rs : sequential force engine (`acceleration2` here; named
    `acceleration` in that file), otherwise identical code
    (`updatePositions`, `updateVelocities`, `energies`, `main` are
    textually the same in both files).

  f64 arithmetic is modelled by exact real arithmetic over ℝ, with
  `Real.sqrt` for `f64::sqrt`; the constants `dt = 1e-3` and
  `tend = 0.1` are exactly the rationals 1/1000 and 1/10 in this
  idealisation.  `Vec<f64>` of length 3 is modelled by the record `V3`
  (index 0 ↦ `x`, 1 ↦ `y`, 2 ↦ `z`); the constant-bound loops
  `for i in 0..3` / `for i in 1..3` of the source are unrolled into
  component updates, preserving exactly which components each loop
  touches.  `Vec<Star>` is `List Star`; in-place index mutation is
  `List.set` / positional `getD`.
-/

namespace NBabel

noncomputable section

/-- One `Vec<f64>` of length 3 from the source (`r`, `v`, `a`, `a0`). -/
structure V3 where
  x : ℝ
  y : ℝ
  z : ℝ

def V3.zero : V3 := ⟨0, 0, 0⟩

instance : Inhabited V3 := ⟨V3.zero⟩

/-- The `Star` struct of both source files. -/
structure Star where
  m : ℝ
  r : V3
  v : V3
  a : V3
  a0 : V3

instance : Inhabited Star := ⟨⟨0, V3.zero, V3.zero, V3.zero, V3.zero⟩⟩

/-- Constant `static dt: f64 = 1e-3;`. -/
def dt : ℝ := 1 / 1000

/-- Constant `let tend: f64 = 0.1;` (local in `main`). -/
def tend : ℝ := 1 / 10

/-- Constant `static THREAD_COUNT: usize = 8;` (main.rs). -/
def THREAD_COUNT : ℕ := 8

/-- The reset loop at the top of both force engines:
`for si in 0..s.len() { s[si].a = vec![0.0; 3]; }`. -/
def resetA (s : List Star) : List Star :=
  s.map (fun b => { b with a := V3.zero })

/-- Vector `rij[i] = s[si].r[i] - s[sj].r[i]` for `i in 0..3`. -/
def rijOf (bi bj : Star) : V3 :=
  ⟨bi.r.x - bj.r.x, bi.r.y - bj.r.y, bi.r.z - bj.r.z⟩

/-- Scalar `RdotR = (rij[0]*rij[0] + rij[1]*rij[1] + rij[2]*rij[2]).sqrt();`
followed by `apre = 1.0/(RdotR.powi(3));`. -/
def apreOf (bi bj : Star) : ℝ :=
  let rij := rijOf bi bj
  1 / (Real.sqrt (rij.x * rij.x + rij.y * rij.y + rij.z * rij.z)) ^ 3

/- ---------------------------------------------------------------
   main2.rs sequential force engine (`acceleration` in that file).
   --------------------------------------------------------------- -/

/-- Body of the pair loop of main2.rs `acceleration`: for the pair
`(si, sj)` it performs, for `i in 1..3` only (the x component, index 0,
is not touched by the source loop),
`s[si].a[i] -= s[sj].m*apre*rij[i]; s[sj].a[i] += s[si].m*apre*rij[i];`. -/
def accelPairStep (s : List Star) (si sj : ℕ) : List Star :=
  let bi := s.getD si default
  let bj := s.getD sj default
  let rij := rijOf bi bj
  let apre := apreOf bi bj
  let s1 := s.set si
    { bi with a := ⟨bi.a.x, bi.a.y - bj.m * apre * rij.y, bi.a.z - bj.m * apre * rij.z⟩ }
  s1.set sj
    { bj with a := ⟨bj.a.x, bj.a.y + bi.m * apre * rij.y, bj.a.z + bi.m * apre * rij.z⟩ }

/-- main2.rs `acceleration`: reset, then
`for si in 0..s.len() { for sj in (si+1)..s.len() { ... } }`. -/
def acceleration2 (s : List Star) : List Star :=
  let s0 := resetA s
  (List.range s.length).foldl (fun cur si =>
    (List.range' (si + 1) (s.length - (si + 1))).foldl
      (fun c sj => accelPairStep c si sj) cur) s0

/- ---------------------------------------------------------------
   main.rs threaded force engine.
   --------------------------------------------------------------- -/

/-- Range bound `thread_start = sc.len() / THREAD_COUNT * thread_index` (main.rs). -/
def threadStart (n tid : ℕ) : ℕ := n / THREAD_COUNT * tid

/-- Range bound `thread_end = sc.len() / THREAD_COUNT * (thread_index + 1)` (main.rs). -/
def threadEnd (n tid : ℕ) : ℕ := n / THREAD_COUNT * (tid + 1)

/-- Body of the worker pair loop of main.rs: updates the worker's local
`adiff` buffer (modelled as `ℕ → V3`) at positions `si` and `sj`, again
only for components `i in 1..3`:
`adiff[si][i] -= sc[sj].m*apre*rij[i]; adiff[sj][i] += sc[si].m*apre*rij[i];`. -/
def bufPairStep (s : List Star) (si sj : ℕ) (buf : ℕ → V3) : ℕ → V3 :=
  let bi := s.getD si default
  let bj := s.getD sj default
  let rij := rijOf bi bj
  let apre := apreOf bi bj
  fun k =>
    if k = si then
      ⟨(buf si).x, (buf si).y - bj.m * apre * rij.y, (buf si).z - bj.m * apre * rij.z⟩
    else if k = sj then
      ⟨(buf sj).x, (buf sj).y + bi.m * apre * rij.y, (buf sj).z + bi.m * apre * rij.z⟩
    else buf k

/-- The local `adiff` buffer one worker sends back over the channel:
zero-initialised (`vec![vec![0.0; 3]; sc.len()]`), then the double loop
`for si in thread_start..thread_end { for sj in (si+1)..sc.len() { ... } }`. -/
def workerBuf (s : List Star) (tid : ℕ) : ℕ → V3 :=
  (List.range' (threadStart s.length tid)
      (threadEnd s.length tid - threadStart s.length tid)).foldl
    (fun buf si =>
      (List.range' (si + 1) (s.length - (si + 1))).foldl
        (fun b sj => bufPairStep s si sj b) buf)
    (fun _ => V3.zero)

/-- Reduction step of main.rs: `for si in 0..s.len() { for i in 0..3 {
s[si].a[i] += ax[si][i]; } }` — note all three components are added here. -/
def addBufAux (buf : ℕ → V3) : ℕ → List Star → List Star
  | _, [] => []
  | i, b :: rest =>
    { b with a := ⟨b.a.x + (buf i).x, b.a.y + (buf i).y, b.a.z + (buf i).z⟩ }
      :: addBufAux buf (i + 1) rest

def addBuf (s : List Star) (buf : ℕ → V3) : List Star := addBufAux buf 0 s

/-- main.rs `acceleration`: reset every `a`, spawn `THREAD_COUNT` workers
on a snapshot of the (reset) store, then receive and add all
`THREAD_COUNT` buffers.  The channel delivers the buffers in an arbitrary
order; elementwise real addition is commutative, so the reduction is
modelled as the fold over worker ids in order. -/
def acceleration (s : List Star) : List Star :=
  let s0 := resetA s
  (List.range THREAD_COUNT).foldl (fun cur tid => addBuf cur (workerBuf s0 tid)) s0

/- ---------------------------------------------------------------
   Integrator (identical in main.rs and main2.rs).
   --------------------------------------------------------------- -/

/-- Function `updatePositions`: for each star, for `i in 1..3` only,
`a0[i] = a[i]; r[i] += dt*v[i] + 0.5*dt*dt*a0[i];`
(the freshly assigned `a0[i] = a[i]` is what the position update reads). -/
def updatePositions (s : List Star) : List Star :=
  s.map (fun star =>
    { star with
      a0 := ⟨star.a0.x, star.a.y, star.a.z⟩
      r := ⟨star.r.x,
            star.r.y + dt * star.v.y + 0.5 * dt * dt * star.a.y,
            star.r.z + dt * star.v.z + 0.5 * dt * dt * star.a.z⟩ })

/-- Function `updateVelocities`: for each star, for `i in 1..3` only,
`v[i] += 0.5*dt*(a0[i] + a[i]); a0[i] = a[i];`
(the velocity update reads the old `a0[i]`). -/
def updateVelocities (s : List Star) : List Star :=
  s.map (fun star =>
    { star with
      v := ⟨star.v.x,
            star.v.y + 0.5 * dt * (star.a0.y + star.a.y),
            star.v.z + 0.5 * dt * (star.a0.z + star.a.z)⟩
      a0 := ⟨star.a0.x, star.a.y, star.a.z⟩ })

/- ---------------------------------------------------------------
   Energy monitor (identical in both files).
   --------------------------------------------------------------- -/

/-- Accumulated `(s[si].r[i] - s[sj].r[i]).powi(2)` summed over `i in 0..3`
(the accumulator `rij` of the potential loop in `energies`). -/
def rijSq (bi bj : Star) : ℝ :=
  (bi.r.x - bj.r.x) ^ 2 + (bi.r.y - bj.r.y) ^ 2 + (bi.r.z - bj.r.z) ^ 2

/-- Kinetic-energy loop of `energies`:
`E[1] += 0.5*star.m*((star.v[0].powi(2) + star.v[1].powi(2) + star.v[2].powi(2)).sqrt());`. -/
def kineticE (s : List Star) : ℝ :=
  s.foldl (fun e b =>
    e + 0.5 * b.m * Real.sqrt (b.v.x ^ 2 + b.v.y ^ 2 + b.v.z ^ 2)) 0

/-- Potential-energy double loop of `energies`:
`for si in 0..s.len() { for sj in (si+1)..s.len() {
   E[2] -= s[si].m*s[sj].m/(rij.sqrt()); } }`. -/
def potentialE (s : List Star) : ℝ :=
  (List.range s.length).foldl (fun acc si =>
    (List.range' (si + 1) (s.length - (si + 1))).foldl
      (fun a2 sj =>
        a2 - (s.getD si default).m * (s.getD sj default).m /
          Real.sqrt (rijSq (s.getD si default) (s.getD sj default)))
      acc) 0

/-- Function `energies` returns the vector `E` with `E[0] = E[1] + E[2]`
(total, kinetic, potential), modelled as a `V3` with
`x ↦ E[0]`, `y ↦ E[1]`, `z ↦ E[2]`. -/
def energies (s : List Star) : V3 :=
  let k := kineticE s
  let p := potentialE s
  ⟨k + p, k, p⟩

/- ---------------------------------------------------------------
   Simulation driver (`main`, identical in both files).
   --------------------------------------------------------------- -/

/-- One iteration of the simulation loop body:
`updatePositions(&mut s); acceleration(&mut s); updateVelocities(&mut s);`
(main.rs variant, threaded force engine). -/
def loopIter (s : List Star) : List Star :=
  updateVelocities (acceleration (updatePositions s))

/-- Loop body of main2.rs (sequential force engine). -/
def loopIter2 (s : List Star) : List Star :=
  updateVelocities (acceleration2 (updatePositions s))

/-- One diagnostic line
`println!("t = {}, E = {} {} {}, dE = {}", t, E[0], E[1], E[2], (E[0]-E0[0])/E0[0])`. -/
structure Diag where
  t : ℝ
  Etot : ℝ
  Ekin : ℝ
  Epot : ℝ
  dE : ℝ

/-- The record the driver emits: current `t`, the three entries of the
fresh energy report, and the relative drift against the baseline `E0`. -/
def mkDiag (E0 : V3) (t : ℝ) (E : V3) : Diag :=
  ⟨t, E.x, E.y, E.z, (E.x - E0.x) / E0.x⟩

/-- The `while t < tend` loop of `main`, embedded with explicit fuel
(the source loop is unbounded; `mainLoop_closed` below shows any fuel
of at least 100 behaves identically, so the fuel is not observable).
State carried: `t`, the step counter `k`, the body store, and the
diagnostics emitted so far. -/
def mainLoop (E0 : V3) : ℕ → ℝ → ℕ → List Star → List Diag → List Star × List Diag
  | 0, _, _, s, ds => (s, ds)
  | fuel + 1, t, k, s, ds =>
    if t < tend then
      let s1 := loopIter s
      let t1 := t + dt
      let k1 := k + 1
      let ds1 := if k1 % 10 = 0 then ds ++ [mkDiag E0 t1 (energies s1)] else ds
      mainLoop E0 fuel t1 k1 s1 ds1
    else (s, ds)

/-- The simulation phase of `main` after parsing: compute the baseline
`E0 = energies(&s)` from the initial (pre-integration) store, invoke the
force engine once, then run the loop from `t = 0`, `k = 0`. -/
def mainSim (fuel : ℕ) (s0 : List Star) : List Star × List Diag :=
  mainLoop (energies s0) fuel 0 0 (acceleration s0) []

/- ---------------------------------------------------------------
   Input parsing phase of `main`.
   --------------------------------------------------------------- -/

/-- One whitespace-delimited token of an input line, abstracted at the
outcome of `str::parse::<f64>`: the empty token (skipped by the source),
a token that parses to a number, or a token that fails to parse. -/
inductive Tok
  | emptyTok
  | numTok (v : ℝ)
  | badTok

/-- The token loop of `main`:
`for num in var { if num == "" { continue; } arr.push(num.parse().expect("Invalid input")); }`
— errors at a non-numeric token, otherwise collects the numeric values. -/
def tokensToNums : List Tok → Except String (List ℝ)
  | [] => .ok []
  | .emptyTok :: rest => tokensToNums rest
  | .numTok v :: rest => (tokensToNums rest).map (fun l => v :: l)
  | .badTok :: _ => .error "Invalid input"

/-- Per-line body construction of `main`: read `arr[0]` (dummy), `arr[1]`
(mass), `arr[2..5]` (position), `arr[5..8]` (velocity); indexing past the
end of `arr` panics, modelled as an error when `arr` has fewer than 8
entries. -/
def parseLine (toks : List Tok) : Except String Star :=
  (tokensToNums toks).bind (fun arr =>
    if 8 ≤ arr.length then
      .ok { m := arr.getD 1 0
            r := ⟨arr.getD 2 0, arr.getD 3 0, arr.getD 4 0⟩
            v := ⟨arr.getD 5 0, arr.getD 6 0, arr.getD 7 0⟩
            a := V3.zero
            a0 := V3.zero }
    else .error "index out of bounds")

/-- The line loop of `main`: lines are the results of splitting the input
on a newline; the source skips a line exactly when the raw line string is
empty (modelled by the empty token list) and pushes one `Star` per
remaining line. -/
def parseInput : List (List Tok) → Except String (List Star)
  | [] => .ok []
  | [] :: rest => parseInput rest
  | line :: rest =>
    (parseLine line).bind (fun b => (parseInput rest).map (fun s => b :: s))

/-- Whole program: parsing runs first and an error aborts before any
simulation step. -/
def mainProgram (fuel : ℕ) (lines : List (List Tok)) :
    Except String (List Star × List Diag) :=
  (parseInput lines).map (mainSim fuel)

/- ---------------------------------------------------------------
   Spec-side definitions (from the specification text, for comparison
   with the code-derived definitions above).
   --------------------------------------------------------------- -/

/-- Spec formula for the net acceleration:
`a_i = Σ_{j≠i} m_j·(r_j − r_i)/|r_j − r_i|³` (componentwise). -/
def specAccel (s : List Star) (i : ℕ) : V3 :=
  ⟨∑ j in (Finset.range s.length).erase i,
      (s.getD j default).m * ((s.getD j default).r.x - (s.getD i default).r.x) /
        (Real.sqrt (rijSq (s.getD j default) (s.getD i default))) ^ 3,
   ∑ j in (Finset.range s.length).erase i,
      (s.getD j default).m * ((s.getD j default).r.y - (s.getD i default).r.y) /
        (Real.sqrt (rijSq (s.getD j default) (s.getD i default))) ^ 3,
   ∑ j in (Finset.range s.length).erase i,
      (s.getD j default).m * ((s.getD j default).r.z - (s.getD i default).r.z) /
        (Real.sqrt (rijSq (s.getD j default) (s.getD i default))) ^ 3⟩

/-- Spec formula for the kinetic term: `Σ_i 0.5·m_i·‖v_i‖` (the speed,
not its square). -/
def specKinetic (s : List Star) : ℝ :=
  (s.map (fun b => 0.5 * b.m * Real.sqrt (b.v.x ^ 2 + b.v.y ^ 2 + b.v.z ^ 2))).sum

/-- Spec formula for the potential term:
`Σ_{i<j} −m_i·m_j/‖r_i − r_j‖`, one term per unordered pair. -/
def specPotential (s : List Star) : ℝ :=
  ∑ i in Finset.range s.length, ∑ j in Finset.Ico (i + 1) s.length,
    -((s.getD i default).m * (s.getD j default).m /
      Real.sqrt (rijSq (s.getD i default) (s.getD j default)))

/-- Worker `tid` evaluates the pair `(i, j)` exactly when its outer-index
range `[threadStart, threadEnd)` contains `i` and `i < j < N` (the loop
bounds of `workerBuf`). -/
def evalsPair (n tid i j : ℕ) : Prop :=
  threadStart n tid ≤ i ∧ i < threadEnd n tid ∧ i < j ∧ j < n

instance (n tid i j : ℕ) : Decidable (evalsPair n tid i j) := by
  unfold evalsPair; infer_instance

/- ---------------------------------------------------------------
   Generic list lemmas.
   --------------------------------------------------------------- -/

lemma getD_set (l : List Star) (n : ℕ) (a : Star) (i : ℕ) :
    (l.set n a).getD i default =
      if n = i ∧ n < l.length then a else l.getD i default := by
  rw [List.getD_eq_getElem?_getD, List.getD_eq_getElem?_getD, List.getElem?_set]
  by_cases h1 : n = i
  · subst h1
    by_cases h2 : n < l.length
    · simp [h2]
    · rw [List.getElem?_eq_none (by omega)]
      simp [h2]
  · simp [h1]

lemma getD_map_comp (g : Star → ℝ) (f : Star → Star) (h : ∀ b, g (f b) = g b)
    (s : List Star) (i : ℕ) :
    g ((s.map f).getD i default) = g (s.getD i default) := by
  rcases Nat.lt_or_ge i s.length with hi | hi
  · rw [List.getD_eq_getElem (s.map f) default (by simpa using hi),
      List.getD_eq_getElem s default hi, List.getElem_map]
    exact h _
  · rw [List.getD_eq_default (s.map f) default (by simpa using hi),
      List.getD_eq_default s default hi]

lemma foldl_preserve {α β : Type} (f : β → α → β) (P : β → Prop)
    (h : ∀ b a, P b → P (f b a)) : ∀ (l : List α) (b : β), P b → P (l.foldl f b) := by
  intro l
  induction l with
  | nil => intro b hb; exact hb
  | cons a t ih => intro b hb; exact ih _ (h b a hb)

lemma foldl_ext {α β : Type} (f g : β → α → β) (h : ∀ b a, f b a = g b a) :
    ∀ (l : List α) (b : β), l.foldl f b = l.foldl g b := by
  intro l
  induction l with
  | nil => intro b; rfl
  | cons a t ih => intro b; rw [List.foldl_cons, List.foldl_cons, h, ih]

lemma foldl_add {α : Type} (f : α → ℝ) :
    ∀ (l : List α) (acc : ℝ), l.foldl (fun a b => a + f b) acc = acc + (l.map f).sum := by
  intro l
  induction l with
  | nil => intro acc; simp
  | cons a t ih => intro acc; simp [ih]; ring

lemma foldl_sub {α : Type} (f : α → ℝ) :
    ∀ (l : List α) (acc : ℝ), l.foldl (fun a b => a - f b) acc = acc - (l.map f).sum := by
  intro l
  induction l with
  | nil => intro acc; simp
  | cons a t ih => intro acc; simp [ih]; ring

lemma map_range'_sum (f : ℕ → ℝ) :
    ∀ (n a : ℕ), ((List.range' a n).map f).sum = ∑ j in Finset.Ico a (a + n), f j := by
  intro n
  induction n with
  | zero => intro a; simp
  | succ n ih =>
    intro a
    rw [List.range'_succ, List.map_cons, List.sum_cons, ih (a + 1),
      Finset.sum_eq_sum_Ico_succ_bot (by omega : a < a + (n + 1)),
      show a + 1 + n = a + (n + 1) from by omega]

lemma map_range_sum (f : ℕ → ℝ) (n : ℕ) :
    ((List.range n).map f).sum = ∑ j in Finset.range n, f j := by
  rw [List.range_eq_range', map_range'_sum, Nat.zero_add, Finset.range_eq_Ico]

/- ---------------------------------------------------------------
   Force-engine lemmas.
   --------------------------------------------------------------- -/

lemma resetA_getD_g (g : Star → ℝ) (hg : ∀ b, g { b with a := V3.zero } = g b)
    (s : List Star) (i : ℕ) :
    g ((resetA s).getD i default) = g (s.getD i default) :=
  getD_map_comp g _ hg s i

lemma resetA_ax (s : List Star) (i : ℕ) : ((resetA s).getD i default).a.x = 0 := by
  rcases Nat.lt_or_ge i s.length with hi | hi
  · rw [List.getD_eq_getElem (resetA s) default (by simpa [resetA] using hi)]
    simp [resetA, V3.zero]
  · rw [List.getD_eq_default (resetA s) default (by simpa [resetA] using hi)]
    rfl

lemma resetA_length (s : List Star) : (resetA s).length = s.length := by
  simp [resetA]

lemma accelPairStep_getD (g : Star → ℝ)
    (hg : ∀ (b : Star) (y z : ℝ), g { b with a := ⟨b.a.x, y, z⟩ } = g b)
    (s : List Star) (si sj i : ℕ) :
    g ((accelPairStep s si sj).getD i default) = g (s.getD i default) := by
  simp only [accelPairStep]
  rw [getD_set, getD_set]
  split_ifs with h1 h2
  · rcases h1 with ⟨rfl, _⟩
    exact hg _ _ _
  · rcases h2 with ⟨rfl, _⟩
    exact hg _ _ _
  · rfl

lemma accelPairStep_length (s : List Star) (si sj : ℕ) :
    (accelPairStep s si sj).length = s.length := by
  simp [accelPairStep]

lemma acceleration2_length (s : List Star) : (acceleration2 s).length = s.length := by
  simp only [acceleration2]
  refine foldl_preserve _ (fun c : List Star => c.length = s.length) ?_ _ _ (resetA_length s)
  intro c si hc
  refine foldl_preserve _ (fun c2 : List Star => c2.length = s.length) ?_ _ _ hc
  intro c2 sj hc2
  rw [accelPairStep_length, hc2]

lemma acceleration2_getD (g : Star → ℝ)
    (hg : ∀ (b : Star) (y z : ℝ), g { b with a := ⟨b.a.x, y, z⟩ } = g b)
    (s : List Star) (i : ℕ) :
    g ((acceleration2 s).getD i default) = g ((resetA s).getD i default) := by
  simp only [acceleration2]
  refine foldl_preserve _
    (fun c : List Star => g (c.getD i default) = g ((resetA s).getD i default)) ?_ _ _ rfl
  intro c si hc
  refine foldl_preserve _
    (fun c2 : List Star => g (c2.getD i default) = g ((resetA s).getD i default)) ?_ _ _ hc
  intro c2 sj hc2
  rw [accelPairStep_getD g hg c2 si sj i, hc2]

lemma acceleration2_ax (s : List Star) (i : ℕ) :
    ((acceleration2 s).getD i default).a.x = 0 := by
  have h := acceleration2_getD (fun b => b.a.x) (fun b y z => rfl) s i
  exact h.trans (resetA_ax s i)

lemma bufPairStep_x (s : List Star) (si sj : ℕ) (buf : ℕ → V3)
    (h : ∀ k, (buf k).x = 0) (k : ℕ) : ((bufPairStep s si sj buf) k).x = 0 := by
  simp only [bufPairStep]
  split_ifs <;> simp [h]

lemma workerBuf_x (s : List Star) (tid : ℕ) (k : ℕ) : ((workerBuf s tid) k).x = 0 := by
  simp only [workerBuf]
  refine foldl_preserve _ (fun buf : ℕ → V3 => ∀ k, (buf k).x = 0) ?_ _ _ ?_ k
  · intro buf si hb
    refine foldl_preserve _ (fun buf2 : ℕ → V3 => ∀ k, (buf2 k).x = 0) ?_ _ _ hb
    intro buf2 sj hb2
    exact bufPairStep_x s si sj buf2 hb2
  · intro j
    rfl

lemma addBufAux_length (buf : ℕ → V3) :
    ∀ (s : List Star) (j : ℕ), (addBufAux buf j s).length = s.length := by
  intro s
  induction s with
  | nil => intro j; rfl
  | cons b t ih => intro j; simp [addBufAux, ih]

lemma addBufAux_getD (buf : ℕ → V3) :
    ∀ (s : List Star) (j i : ℕ),
      (addBufAux buf j s).getD i default =
        if i < s.length then
          { s.getD i default with
            a := ⟨(s.getD i default).a.x + (buf (j + i)).x,
                  (s.getD i default).a.y + (buf (j + i)).y,
                  (s.getD i default).a.z + (buf (j + i)).z⟩ }
        else default := by
  intro s
  induction s with
  | nil => intro j i; simp [addBufAux]
  | cons b t ih =>
    intro j i
    cases i with
    | zero => simp [addBufAux]
    | succ i' =>
      simp only [addBufAux, List.getD_cons_succ, List.length_cons]
      rw [ih (j + 1) i']
      have : j + 1 + i' = j + (i' + 1) := by omega
      rw [this]
      by_cases hi : i' < t.length
      · rw [if_pos hi, if_pos (by omega)]
      · rw [if_neg hi, if_neg (by omega)]

lemma addBuf_getD (s : List Star) (buf : ℕ → V3) (i : ℕ) :
    (addBuf s buf).getD i default =
      if i < s.length then
        { s.getD i default with
          a := ⟨(s.getD i default).a.x + (buf i).x,
                (s.getD i default).a.y + (buf i).y,
                (s.getD i default).a.z + (buf i).z⟩ }
      else default := by
  rw [addBuf, addBufAux_getD]
  simp

lemma addBuf_length (s : List Star) (buf : ℕ → V3) :
    (addBuf s buf).length = s.length := addBufAux_length buf s 0

lemma acceleration_length (s : List Star) : (acceleration s).length = s.length := by
  simp only [acceleration]
  refine foldl_preserve _ (fun c : List Star => c.length = s.length) ?_ _ _ (resetA_length s)
  intro c tid hc
  rw [addBuf_length, hc]

lemma acceleration_getD (g : Star → ℝ)
    (hga : ∀ (b : Star) (w : V3), g { b with a := w } = g b)
    (s : List Star) (i : ℕ) :
    g ((acceleration s).getD i default) = g (s.getD i default) := by
  simp only [acceleration]
  have base : ((resetA s).length = s.length) ∧
      g ((resetA s).getD i default) = g (s.getD i default) :=
    ⟨resetA_length s, resetA_getD_g g (fun b => hga b V3.zero) s i⟩
  have step := foldl_preserve (fun cur tid => addBuf cur (workerBuf (resetA s) tid))
    (fun c : List Star => c.length = s.length ∧ g (c.getD i default) = g (s.getD i default))
    ?_ (List.range THREAD_COUNT) (resetA s) base
  · exact step.2
  · intro c tid hc
    refine ⟨by rw [addBuf_length, hc.1], ?_⟩
    rw [addBuf_getD]
    by_cases hi : i < c.length
    · rw [if_pos hi, hga, hc.2]
    · rw [if_neg hi]
      have hlen := hc.1
      rw [List.getD_eq_default s default (by omega)]

lemma acceleration_ax (s : List Star) (i : ℕ) :
    ((acceleration s).getD i default).a.x = 0 := by
  simp only [acceleration]
  have base : ((resetA s).length = s.length) ∧ ((resetA s).getD i default).a.x = 0 :=
    ⟨resetA_length s, resetA_ax s i⟩
  have step := foldl_preserve (fun cur tid => addBuf cur (workerBuf (resetA s) tid))
    (fun c : List Star => c.length = s.length ∧ (c.getD i default).a.x = 0)
    ?_ (List.range THREAD_COUNT) (resetA s) base
  · exact step.2
  · intro c tid hc
    refine ⟨by rw [addBuf_length, hc.1], ?_⟩
    rw [addBuf_getD]
    by_cases hi : i < c.length
    · rw [if_pos hi]
      show (c.getD i default).a.x + (workerBuf (resetA s) tid i).x = 0
      rw [workerBuf_x, add_zero, hc.2]
    · rw [if_neg hi]
      rfl

/-- Adding an all-zero buffer is the identity on the store. -/
lemma addBufAux_zero : ∀ (s : List Star) (j : ℕ),
    addBufAux (fun _ => V3.zero) j s = s := by
  intro s
  induction s with
  | nil => intro j; rfl
  | cons b t ih =>
    intro j
    simp only [addBufAux, ih]
    rw [show b.a.x + V3.zero.x = b.a.x from by simp [V3.zero],
      show b.a.y + V3.zero.y = b.a.y from by simp [V3.zero],
      show b.a.z + V3.zero.z = b.a.z from by simp [V3.zero]]

/-- With fewer bodies than workers (`N < 8`, so `N / 8 = 0`), every
worker's outer range `[N/8·id, N/8·(id+1))` is empty and the threaded
force engine only performs the reset: every acceleration ends up zero. -/
lemma acceleration_small (s : List Star) (h : s.length < THREAD_COUNT) :
    acceleration s = resetA s := by
  have hlen : (resetA s).length = s.length := resetA_length s
  have hdiv : (resetA s).length / THREAD_COUNT = 0 :=
    Nat.div_eq_of_lt (by omega)
  have hbuf : ∀ tid, workerBuf (resetA s) tid = fun _ => V3.zero := by
    intro tid
    simp [workerBuf, threadStart, threadEnd, hdiv]
  simp only [acceleration]
  have : ∀ cur tid, addBuf cur (workerBuf (resetA s) tid) = cur := by
    intro cur tid
    rw [hbuf tid]
    exact addBufAux_zero cur 0
  rw [foldl_ext _ (fun cur _ => cur) this]
  induction (List.range THREAD_COUNT) with
  | nil => rfl
  | cons a t ih => rw [List.foldl_cons]; exact ih

/-- Explicit value of the sequential force engine on a two-body store:
the single pair `(0, 1)` is evaluated once; only the y- and z-components
of the accelerations are written. -/
lemma acceleration2_two (b0 b1 : Star) :
    acceleration2 [b0, b1] =
      [{ b0 with a := ⟨0, 0 - b1.m * apreOf b0 b1 * (rijOf b0 b1).y,
                          0 - b1.m * apreOf b0 b1 * (rijOf b0 b1).z⟩ },
       { b1 with a := ⟨0, 0 + b0.m * apreOf b0 b1 * (rijOf b0 b1).y,
                          0 + b0.m * apreOf b0 b1 * (rijOf b0 b1).z⟩ }] := by
  rfl

/- ---------------------------------------------------------------
   Integrator lemmas: the x components survive every operation.
   --------------------------------------------------------------- -/

lemma updatePositions_rx (s : List Star) (i : ℕ) :
    ((updatePositions s).getD i default).r.x = (s.getD i default).r.x := by
  unfold updatePositions
  apply getD_map_comp (fun b => b.r.x)
  intro b
  rfl

lemma updatePositions_vx (s : List Star) (i : ℕ) :
    ((updatePositions s).getD i default).v.x = (s.getD i default).v.x := by
  unfold updatePositions
  apply getD_map_comp (fun b => b.v.x)
  intro b
  rfl

lemma updatePositions_a0x (s : List Star) (i : ℕ) :
    ((updatePositions s).getD i default).a0.x = (s.getD i default).a0.x := by
  unfold updatePositions
  apply getD_map_comp (fun b => b.a0.x)
  intro b
  rfl

lemma updateVelocities_rx (s : List Star) (i : ℕ) :
    ((updateVelocities s).getD i default).r.x = (s.getD i default).r.x := by
  unfold updateVelocities
  apply getD_map_comp (fun b => b.r.x)
  intro b
  rfl

lemma updateVelocities_vx (s : List Star) (i : ℕ) :
    ((updateVelocities s).getD i default).v.x = (s.getD i default).v.x := by
  unfold updateVelocities
  apply getD_map_comp (fun b => b.v.x)
  intro b
  rfl

lemma updateVelocities_a0x (s : List Star) (i : ℕ) :
    ((updateVelocities s).getD i default).a0.x = (s.getD i default).a0.x := by
  unfold updateVelocities
  apply getD_map_comp (fun b => b.a0.x)
  intro b
  rfl

lemma acceleration_rx (s : List Star) (i : ℕ) :
    ((acceleration s).getD i default).r.x = (s.getD i default).r.x :=
  acceleration_getD (fun b => b.r.x) (fun _ _ => rfl) s i

lemma acceleration_vx (s : List Star) (i : ℕ) :
    ((acceleration s).getD i default).v.x = (s.getD i default).v.x :=
  acceleration_getD (fun b => b.v.x) (fun _ _ => rfl) s i

lemma acceleration2_rx (s : List Star) (i : ℕ) :
    ((acceleration2 s).getD i default).r.x = (s.getD i default).r.x :=
  (acceleration2_getD (fun b => b.r.x) (fun _ _ _ => rfl) s i).trans
    (resetA_getD_g (fun b => b.r.x) (fun _ => rfl) s i)

lemma acceleration2_vx (s : List Star) (i : ℕ) :
    ((acceleration2 s).getD i default).v.x = (s.getD i default).v.x :=
  (acceleration2_getD (fun b => b.v.x) (fun _ _ _ => rfl) s i).trans
    (resetA_getD_g (fun b => b.v.x) (fun _ => rfl) s i)

lemma loopIter_rx (s : List Star) (i : ℕ) :
    ((loopIter s).getD i default).r.x = (s.getD i default).r.x := by
  unfold loopIter
  rw [updateVelocities_rx, acceleration_rx, updatePositions_rx]

lemma loopIter_vx (s : List Star) (i : ℕ) :
    ((loopIter s).getD i default).v.x = (s.getD i default).v.x := by
  unfold loopIter
  rw [updateVelocities_vx, acceleration_vx, updatePositions_vx]

lemma loopIter2_rx (s : List Star) (i : ℕ) :
    ((loopIter2 s).getD i default).r.x = (s.getD i default).r.x := by
  unfold loopIter2
  rw [updateVelocities_rx, acceleration2_rx, updatePositions_rx]

lemma loopIter2_vx (s : List Star) (i : ℕ) :
    ((loopIter2 s).getD i default).v.x = (s.getD i default).v.x := by
  unfold loopIter2
  rw [updateVelocities_vx, acceleration2_vx, updatePositions_vx]

lemma iterate_loopIter_x (s : List Star) (i : ℕ) :
    ∀ n : ℕ, ((loopIter^[n] s).getD i default).r.x = (s.getD i default).r.x ∧
      ((loopIter^[n] s).getD i default).v.x = (s.getD i default).v.x := by
  intro n
  induction n with
  | zero => exact ⟨rfl, rfl⟩
  | succ n ih =>
    rw [Function.iterate_succ_apply']
    exact ⟨(loopIter_rx _ i).trans ih.1, (loopIter_vx _ i).trans ih.2⟩

lemma iterate_loopIter2_x (s : List Star) (i : ℕ) :
    ∀ n : ℕ, ((loopIter2^[n] s).getD i default).r.x = (s.getD i default).r.x ∧
      ((loopIter2^[n] s).getD i default).v.x = (s.getD i default).v.x := by
  intro n
  induction n with
  | zero => exact ⟨rfl, rfl⟩
  | succ n ih =>
    rw [Function.iterate_succ_apply']
    exact ⟨(loopIter2_rx _ i).trans ih.1, (loopIter2_vx _ i).trans ih.2⟩

/- ---------------------------------------------------------------
   Energy-monitor lemmas: the accumulation loops compute the spec sums.
   --------------------------------------------------------------- -/

lemma kineticE_eq (s : List Star) : kineticE s = specKinetic s := by
  unfold kineticE specKinetic
  rw [foldl_add]
  ring

lemma potentialE_eq (s : List Star) : potentialE s = specPotential s := by
  unfold potentialE specPotential
  rw [foldl_ext _
    (fun acc si => acc -
      ((List.range' (si + 1) (s.length - (si + 1))).map (fun sj =>
        (s.getD si default).m * (s.getD sj default).m /
          Real.sqrt (rijSq (s.getD si default) (s.getD sj default)))).sum)
    (fun acc si => foldl_sub _ _ acc)]
  rw [foldl_sub, zero_sub, map_range_sum]
  rw [Finset.sum_congr rfl (fun si hsi => by
    rw [map_range'_sum, show si + 1 + (s.length - (si + 1)) = s.length from by
      have := Finset.mem_range.1 hsi
      omega])]
  rw [← Finset.sum_neg_distrib]
  refine Finset.sum_congr rfl (fun si _ => ?_)
  rw [← Finset.sum_neg_distrib]

/- ---------------------------------------------------------------
   Driver lemmas: with `dt = 1/1000` and `tend = 1/10` in exact real
   arithmetic, the guard `t < tend` at `t = k·dt` holds iff `k < 100`.
   --------------------------------------------------------------- -/

lemma guard_iff (k : ℕ) : ((k : ℝ) * dt < tend) ↔ k < 100 := by
  unfold dt tend
  constructor
  · intro h
    by_contra hk
    push_neg at hk
    have h100 : (100 : ℝ) ≤ (k : ℝ) := by exact_mod_cast hk
    nlinarith
  · intro h
    have h100 : (k : ℝ) < 100 := by exact_mod_cast h
    nlinarith

lemma mainLoop_stop (E0 : V3) (fuel k : ℕ) (s : List Star) (ds : List Diag)
    (hk : 100 ≤ k) : mainLoop E0 fuel ((k : ℝ) * dt) k s ds = (s, ds) := by
  cases fuel with
  | zero => rfl
  | succ f =>
    have hg : ¬ ((k : ℝ) * dt < tend) := fun h => absurd ((guard_iff k).1 h) (by omega)
    simp only [mainLoop, if_neg hg]

lemma mainLoop_step (E0 : V3) (f k : ℕ) (s : List Star) (ds : List Diag)
    (hk : k < 100) :
    mainLoop E0 (f + 1) ((k : ℝ) * dt) k s ds =
      mainLoop E0 f (((k + 1 : ℕ) : ℝ) * dt) (k + 1) (loopIter s)
        (if (k + 1) % 10 = 0 then
          ds ++ [mkDiag E0 (((k + 1 : ℕ) : ℝ) * dt) (energies (loopIter s))]
        else ds) := by
  have hg : (k : ℝ) * dt < tend := (guard_iff k).2 hk
  have ht : (k : ℝ) * dt + dt = ((k + 1 : ℕ) : ℝ) * dt := by push_cast; ring
  simp only [mainLoop, if_pos hg, ht]

lemma mainLoop_ten (E0 : V3) (f k : ℕ) (s : List Star) (ds : List Diag)
    (hk : k % 10 = 0) (h100 : k + 10 ≤ 100) :
    mainLoop E0 (f + 10) ((k : ℝ) * dt) k s ds =
      mainLoop E0 f (((k + 10 : ℕ) : ℝ) * dt) (k + 10) (loopIter^[10] s)
        (ds ++ [mkDiag E0 (((k + 10 : ℕ) : ℝ) * dt) (energies (loopIter^[10] s))]) := by
  have e10 : ∀ t : List Star, loopIter^[10] t =
      loopIter (loopIter (loopIter (loopIter (loopIter (loopIter (loopIter
        (loopIter (loopIter (loopIter t))))))))) := fun t => rfl
  rw [show f + 10 = (f + 9) + 1 from by omega,
    mainLoop_step E0 (f + 9) k s ds (by omega), if_neg (by omega)]
  rw [show f + 9 = (f + 8) + 1 from by omega,
    mainLoop_step E0 (f + 8) (k + 1) _ _ (by omega), if_neg (by omega)]
  rw [show f + 8 = (f + 7) + 1 from by omega,
    mainLoop_step E0 (f + 7) (k + 1 + 1) _ _ (by omega), if_neg (by omega)]
  rw [show f + 7 = (f + 6) + 1 from by omega,
    mainLoop_step E0 (f + 6) (k + 1 + 1 + 1) _ _ (by omega), if_neg (by omega)]
  rw [show f + 6 = (f + 5) + 1 from by omega,
    mainLoop_step E0 (f + 5) (k + 1 + 1 + 1 + 1) _ _ (by omega), if_neg (by omega)]
  rw [show f + 5 = (f + 4) + 1 from by omega,
    mainLoop_step E0 (f + 4) (k + 1 + 1 + 1 + 1 + 1) _ _ (by omega), if_neg (by omega)]
  rw [show f + 4 = (f + 3) + 1 from by omega,
    mainLoop_step E0 (f + 3) (k + 1 + 1 + 1 + 1 + 1 + 1) _ _ (by omega), if_neg (by omega)]
  rw [show f + 3 = (f + 2) + 1 from by omega,
    mainLoop_step E0 (f + 2) (k + 1 + 1 + 1 + 1 + 1 + 1 + 1) _ _ (by omega),
    if_neg (by omega)]
  rw [show f + 2 = (f + 1) + 1 from by omega,
    mainLoop_step E0 (f + 1) (k + 1 + 1 + 1 + 1 + 1 + 1 + 1 + 1) _ _ (by omega),
    if_neg (by omega)]
  rw [mainLoop_step E0 f (k + 1 + 1 + 1 + 1 + 1 + 1 + 1 + 1 + 1) _ _ (by omega),
    if_pos (by omega)]
  rw [e10]

/-- Closed form of the driver loop: starting at step `k` (a multiple of
10) with `k + 10·d = 100` and enough fuel, the loop performs `10·d` more
iterations and emits exactly `d` more diagnostics, one after every block
of 10 steps. -/
lemma mainLoop_closed (E0 : V3) :
    ∀ (d k : ℕ) (s : List Star) (ds : List Diag) (f : ℕ),
      k + 10 * d = 100 → k % 10 = 0 → 10 * d ≤ f →
      mainLoop E0 f ((k : ℝ) * dt) k s ds =
        (loopIter^[10 * d] s,
         ds ++ (List.range d).map (fun p =>
           mkDiag E0 (((k + 10 * (p + 1) : ℕ) : ℝ) * dt)
             (energies (loopIter^[10 * (p + 1)] s)))) := by
  intro d
  induction d with
  | zero =>
    intro k s ds f h100 hmod hf
    rw [mainLoop_stop E0 f k s ds (by omega)]
    simp
  | succ d ih =>
    intro k s ds f h100 hmod hf
    obtain ⟨g, rfl⟩ : ∃ g, f = g + 10 := ⟨f - 10, by omega⟩
    rw [mainLoop_ten E0 g k s ds hmod (by omega)]
    rw [ih (k + 10) _ _ g (by omega) (by omega) (by omega)]
    refine Prod.ext ?_ ?_
    · show loopIter^[10 * d] (loopIter^[10] s) = loopIter^[10 * (d + 1)] s
      rw [← Function.iterate_add_apply, show 10 * d + 10 = 10 * (d + 1) from by ring]
    · show (ds ++ [mkDiag E0 (((k + 10 : ℕ) : ℝ) * dt) (energies (loopIter^[10] s))]) ++
        (List.range d).map (fun p =>
          mkDiag E0 (((k + 10 + 10 * (p + 1) : ℕ) : ℝ) * dt)
            (energies (loopIter^[10 * (p + 1)] (loopIter^[10] s)))) =
        ds ++ (List.range (d + 1)).map (fun p =>
          mkDiag E0 (((k + 10 * (p + 1) : ℕ) : ℝ) * dt)
            (energies (loopIter^[10 * (p + 1)] s)))
      rw [List.append_assoc, List.singleton_append, List.range_succ_eq_map, List.map_cons,
        List.map_map]
      refine congrArg _ (congrArg₂ _ ?_ ?_)
      · rw [show 10 * (0 + 1) = 10 from by ring, show k + 10 * (0 + 1) = k + 10 from by ring]
      · refine List.map_congr_left (fun p _ => ?_)
        show mkDiag E0 (((k + 10 + 10 * (p + 1) : ℕ) : ℝ) * dt)
            (energies (loopIter^[10 * (p + 1)] (loopIter^[10] s))) =
          mkDiag E0 (((k + 10 * (p + 1 + 1) : ℕ) : ℝ) * dt)
            (energies (loopIter^[10 * (p + 1 + 1)] s))
        rw [show k + 10 * (p + 1 + 1) = k + 10 + 10 * (p + 1) from by ring,
          show 10 * (p + 1 + 1) = 10 * (p + 1) + 10 from by ring,
          Function.iterate_add_apply]

/- ---------------------------------------------------------------
   Parsing lemmas.
   --------------------------------------------------------------- -/

/-- The numeric value of a token, if any. -/
def numVal : Tok → Option ℝ
  | .numTok v => some v
  | _ => none

/-- The numeric fields of a record, in order (empty tokens skipped). -/
def numVals (l : List Tok) : List ℝ := l.filterMap numVal

/-- The body a well-formed record parses to: identifier field ignored,
mass from field 2, position from fields 3–5, velocity from fields 6–8
(1-indexed), accelerations zero-initialised. -/
def starOfLine (l : List Tok) : Star :=
  { m := (numVals l).getD 1 0
    r := ⟨(numVals l).getD 2 0, (numVals l).getD 3 0, (numVals l).getD 4 0⟩
    v := ⟨(numVals l).getD 5 0, (numVals l).getD 6 0, (numVals l).getD 7 0⟩
    a := V3.zero
    a0 := V3.zero }

lemma tokensToNums_ok : ∀ (l : List Tok), Tok.badTok ∉ l →
    tokensToNums l = .ok (numVals l) := by
  intro l
  induction l with
  | nil => intro _; rfl
  | cons t rest ih =>
    intro h
    cases t with
    | emptyTok =>
      show tokensToNums rest = _
      rw [ih (fun hm => h (List.mem_cons_of_mem _ hm))]
      rfl
    | numTok v =>
      show (tokensToNums rest).map _ = _
      rw [ih (fun hm => h (List.mem_cons_of_mem _ hm))]
      rfl
    | badTok => exact absurd (List.mem_cons_self _ _) h

lemma tokensToNums_err : ∀ (l : List Tok), Tok.badTok ∈ l →
    ∃ e, tokensToNums l = .error e := by
  intro l
  induction l with
  | nil => intro h; exact absurd h (List.not_mem_nil _)
  | cons t rest ih =>
    intro h
    cases t with
    | emptyTok =>
      rcases List.mem_cons.1 h with h1 | h1
      · exact absurd h1 (by intro hh; cases hh)
      · exact ih h1
    | numTok v =>
      rcases List.mem_cons.1 h with h1 | h1
      · exact absurd h1 (by intro hh; cases hh)
      · obtain ⟨e, he⟩ := ih h1
        refine ⟨e, ?_⟩
        show (tokensToNums rest).map _ = _
        rw [he]
        rfl
    | badTok => exact ⟨"Invalid input", rfl⟩

lemma parseLine_ok (l : List Tok) (hb : Tok.badTok ∉ l)
    (h8 : 8 ≤ (numVals l).length) : parseLine l = .ok (starOfLine l) := by
  unfold parseLine
  rw [tokensToNums_ok l hb]
  show (if 8 ≤ (numVals l).length then _ else _) = _
  rw [if_pos h8]
  rfl

lemma parseLine_err (l : List Tok)
    (h : Tok.badTok ∈ l ∨ (numVals l).length < 8) :
    ∃ e, parseLine l = .error e := by
  by_cases hb : Tok.badTok ∈ l
  · obtain ⟨e, he⟩ := tokensToNums_err l hb
    refine ⟨e, ?_⟩
    unfold parseLine
    rw [he]
    rfl
  · have h8 : (numVals l).length < 8 := by tauto
    refine ⟨"index out of bounds", ?_⟩
    unfold parseLine
    rw [tokensToNums_ok l hb]
    show (if 8 ≤ (numVals l).length then _ else _) = _
    rw [if_neg (by omega)]

lemma parseInput_err : ∀ (lines : List (List Tok)),
    (∃ l ∈ lines, l ≠ [] ∧ (Tok.badTok ∈ l ∨ (numVals l).length < 8)) →
    ∃ e, parseInput lines = .error e := by
  intro lines
  induction lines with
  | nil => rintro ⟨l, hl, _⟩; exact absurd hl (List.not_mem_nil _)
  | cons line rest ih =>
    rintro ⟨l, hl, hne, hbad⟩
    cases line with
    | nil =>
      rcases List.mem_cons.1 hl with rfl | hl2
      · exact absurd rfl hne
      · exact ih ⟨l, hl2, hne, hbad⟩
    | cons t ts =>
      rcases List.mem_cons.1 hl with rfl | hl2
      · obtain ⟨e, he⟩ := parseLine_err _ hbad
        refine ⟨e, ?_⟩
        show ((parseLine (t :: ts)).bind _) = _
        rw [he]
        rfl
      · obtain ⟨e, he⟩ := ih ⟨l, hl2, hne, hbad⟩
        show (∃ e2, ((parseLine (t :: ts)).bind fun b =>
          (parseInput rest).map fun s => b :: s) = .error e2)
        cases hpl : parseLine (t :: ts) with
        | error e2 => exact ⟨e2, rfl⟩
        | ok b =>
          refine ⟨e, ?_⟩
          show ((parseInput rest).map fun s => b :: s) = _
          rw [he]
          rfl

lemma parseInput_ok : ∀ (lines : List (List Tok)),
    (∀ l ∈ lines, Tok.badTok ∉ l ∧ (l = [] ∨ 8 ≤ (numVals l).length)) →
    parseInput lines = .ok ((lines.filter (fun l => !l.isEmpty)).map starOfLine) := by
  intro lines
  induction lines with
  | nil => intro _; rfl
  | cons line rest ih =>
    intro h
    cases line with
    | nil =>
      show parseInput rest = _
      rw [ih (fun l hl => h l (List.mem_cons_of_mem _ hl))]
      rfl
    | cons t ts =>
      obtain ⟨hb, h8⟩ := h (t :: ts) (List.mem_cons_self _ _)
      have h8' : 8 ≤ (numVals (t :: ts)).length := by
        rcases h8 with h8 | h8
        · exact absurd h8 (by intro hh; cases hh)
        · exact h8
      show ((parseLine (t :: ts)).bind fun b =>
        (parseInput rest).map fun s => b :: s) = _
      rw [parseLine_ok _ hb h8', ih (fun l hl => h l (List.mem_cons_of_mem _ hl))]
      rfl

/- ---------------------------------------------------------------
   Claim theorems.
   --------------------------------------------------------------- -/

/-- Claim C2 (corrected): with the worker count 8, when 8 divides N every
unordered pair (i, j), i < j < N, lies in the outer range of exactly one
worker, and the last worker's range ends exactly at N.  (As originally
stated — for every N, including N not divisible by 8 — the claim is
false; see the counterexample.) -/
theorem C2_partition_corrected (n i j : ℕ) (h8 : THREAD_COUNT ∣ n)
    (hij : i < j) (hjn : j < n) :
    (∃! t, t < THREAD_COUNT ∧ evalsPair n t i j) ∧
    threadEnd n (THREAD_COUNT - 1) = n := by
  have h8' : (8 : ℕ) ∣ n := h8
  have hk : n / 8 * 8 = n := Nat.div_mul_cancel h8'
  have hq0 : 0 < n / 8 := by omega
  constructor
  · refine ⟨i / (n / 8), ⟨?_, ?_, ?_, hij, hjn⟩, ?_⟩
    · show i / (n / 8) < 8
      exact (Nat.div_lt_iff_lt_mul hq0).2 (by omega)
    · show threadStart n (i / (n / 8)) ≤ i
      simp only [threadStart, THREAD_COUNT]
      rw [mul_comm]
      exact Nat.div_mul_le_self i (n / 8)
    · show i < threadEnd n (i / (n / 8))
      simp only [threadEnd, THREAD_COUNT]
      have hdm := Nat.div_add_mod i (n / 8)
      have hmlt : i % (n / 8) < n / 8 := Nat.mod_lt i hq0
      have expand : n / 8 * (i / (n / 8) + 1) = n / 8 * (i / (n / 8)) + n / 8 := by ring
      rw [expand]
      generalize n / 8 * (i / (n / 8)) = a at hdm ⊢
      omega
    · rintro t ⟨ht8, hts, hte, -, -⟩
      simp only [threadStart, THREAD_COUNT] at hts
      simp only [threadEnd, THREAD_COUNT] at hte
      exact (Nat.div_eq_of_lt_le (by rw [mul_comm]; exact hts)
        (by rw [mul_comm]; exact hte)).symm
  · show n / 8 * (8 - 1 + 1) = n
    omega

/-- Claim C2, original statement refuted: at N = 10 the pair (8, 9) lies
in no worker's range, and the last worker's range ends at 8, not 10. -/
theorem C2_counterexample :
    (¬ ∃ t, t < THREAD_COUNT ∧ evalsPair 10 t 8 9) ∧
    threadEnd 10 (THREAD_COUNT - 1) ≠ 10 := by
  refine ⟨by decide, by decide⟩

/-- Claim C2, witness: at N = 16 the pair (3, 9) is owned by exactly one
worker and the last worker's range ends at 16. -/
theorem C2_witness :
    (THREAD_COUNT ∣ 16 ∧ 3 < 9 ∧ 9 < 16) ∧
    ((∃! t, t < THREAD_COUNT ∧ evalsPair 16 t 3 9) ∧
      threadEnd 16 (THREAD_COUNT - 1) = 16) :=
  ⟨⟨by decide, by decide, by decide⟩,
    C2_partition_corrected 16 3 9 (by decide) (by decide) (by decide)⟩

/-- Claim C4 (confirmed): `energies` returns the vector whose kinetic
entry is `Σ_i 0.5·m_i·‖v_i‖` (the speed, not its square), whose
potential entry is `Σ_{i<j} −m_i·m_j/‖r_i−r_j‖` with each unordered pair
counted once, and whose first entry is their sum. -/
theorem C4_energies_report (s : List Star) :
    energies s = ⟨specKinetic s + specPotential s, specKinetic s, specPotential s⟩ := by
  unfold energies
  rw [kineticE_eq, potentialE_eq]

/-- Claim C9 (confirmed): on a one-body store both force engines return
the body with acceleration exactly (0,0,0) and the potential term is
exactly 0; on the empty store all energies are 0 and both engines return
the empty store. -/
theorem C9_degenerate_stores (b : Star) :
    acceleration [b] = [{ b with a := V3.zero }] ∧
    acceleration2 [b] = [{ b with a := V3.zero }] ∧
    (energies [b]).z = 0 ∧
    (energies []).x = 0 ∧ (energies []).y = 0 ∧ (energies []).z = 0 ∧
    acceleration [] = [] ∧ acceleration2 [] = [] := by
  refine ⟨?_, ?_, ?_, ?_, ?_, ?_, ?_, ?_⟩
  · rw [acceleration_small [b] (by norm_num [THREAD_COUNT])]
    rfl
  · rfl
  · rfl
  · show kineticE [] + potentialE [] = 0
    norm_num [kineticE, potentialE]
  · rfl
  · rfl
  · rw [acceleration_small [] (by norm_num [THREAD_COUNT])]
    rfl
  · rfl

/-- Claim C10 (confirmed): neither `updatePositions` nor
`updateVelocities` touches the x components of position, velocity or
previous acceleration; after either force engine every acceleration's x
component is exactly 0; consequently along the whole run (initial force
evaluation followed by any number of loop iterations, in either program
variant) every body keeps its initial x position and x velocity. -/
theorem C10_x_axis_never_updated (s : List Star) (i n : ℕ) :
    ((updatePositions s).getD i default).r.x = (s.getD i default).r.x ∧
    ((updatePositions s).getD i default).v.x = (s.getD i default).v.x ∧
    ((updatePositions s).getD i default).a0.x = (s.getD i default).a0.x ∧
    ((updateVelocities s).getD i default).r.x = (s.getD i default).r.x ∧
    ((updateVelocities s).getD i default).v.x = (s.getD i default).v.x ∧
    ((updateVelocities s).getD i default).a0.x = (s.getD i default).a0.x ∧
    ((acceleration s).getD i default).a.x = 0 ∧
    ((acceleration2 s).getD i default).a.x = 0 ∧
    ((loopIter^[n] (acceleration s)).getD i default).r.x = (s.getD i default).r.x ∧
    ((loopIter^[n] (acceleration s)).getD i default).v.x = (s.getD i default).v.x ∧
    ((loopIter2^[n] (acceleration2 s)).getD i default).r.x = (s.getD i default).r.x ∧
    ((loopIter2^[n] (acceleration2 s)).getD i default).v.x = (s.getD i default).v.x :=
  ⟨updatePositions_rx s i, updatePositions_vx s i, updatePositions_a0x s i,
   updateVelocities_rx s i, updateVelocities_vx s i, updateVelocities_a0x s i,
   acceleration_ax s i, acceleration2_ax s i,
   (iterate_loopIter_x (acceleration s) i n).1.trans (acceleration_rx s i),
   (iterate_loopIter_x (acceleration s) i n).2.trans (acceleration_vx s i),
   (iterate_loopIter2_x (acceleration2 s) i n).1.trans (acceleration2_rx s i),
   (iterate_loopIter2_x (acceleration2 s) i n).2.trans (acceleration2_vx s i)⟩

/- Concrete bodies used by the concrete-scenario claims. -/

/-- Body of mass 1 at the origin, at rest. -/
def bodyA : Star := ⟨1, ⟨0, 0, 0⟩, V3.zero, V3.zero, V3.zero⟩

/-- Body of mass 1 at (1,0,0), at rest. -/
def bodyB : Star := ⟨1, ⟨1, 0, 0⟩, V3.zero, V3.zero, V3.zero⟩

/-- Body of mass 2 at the origin, at rest. -/
def bodyC : Star := ⟨2, ⟨0, 0, 0⟩, V3.zero, V3.zero, V3.zero⟩

/-- Body of mass 3 at (1,0,0), at rest. -/
def bodyD : Star := ⟨3, ⟨1, 0, 0⟩, V3.zero, V3.zero, V3.zero⟩

/-- Body of mass 2 at (0,1,0), at rest. -/
def bodyE : Star := ⟨2, ⟨0, 1, 0⟩, V3.zero, V3.zero, V3.zero⟩

/-- Body with unit x velocity and unit x acceleration. -/
def bodyF : Star := ⟨1, ⟨0, 0, 0⟩, ⟨1, 0, 0⟩, ⟨1, 0, 0⟩, V3.zero⟩

lemma specAccel_pair_x (b0 b1 : Star) :
    (specAccel [b0, b1] 0).x =
      b1.m * (b1.r.x - b0.r.x) / (Real.sqrt (rijSq b1 b0)) ^ 3 ∧
    (specAccel [b0, b1] 1).x =
      b0.m * (b0.r.x - b1.r.x) / (Real.sqrt (rijSq b0 b1)) ^ 3 := by
  have h0 : (Finset.range ([b0, b1] : List Star).length).erase 0 = {1} := by
    show (Finset.range 2).erase 0 = {1}
    decide
  have h1 : (Finset.range ([b0, b1] : List Star).length).erase 1 = {0} := by
    show (Finset.range 2).erase 1 = {0}
    decide
  constructor
  · show (specAccel [b0, b1] 0).x = _
    unfold specAccel
    rw [h0, Finset.sum_singleton]
    rfl
  · show (specAccel [b0, b1] 1).x = _
    unfold specAccel
    rw [h1, Finset.sum_singleton]
    rfl

/-- Claim C1 (code bug): the force-engine loops update only components
1 and 2 of the acceleration, so the x component of the net acceleration
is left at 0, while the specified law `a_i = Σ_{j≠i} m_j·(r_j−r_i)/|…|³`
gives 3 at the failing input (masses 2 and 3 at (0,0,0) and (1,0,0)).
(For the threaded engine the two-body input additionally falls entirely
outside all worker ranges, since 2/8 = 0.) -/
theorem C1_force_law_x_component :
    ((acceleration2 [bodyC, bodyD]).getD 0 default).a.x = 0 ∧
    ((acceleration [bodyC, bodyD]).getD 0 default).a.x = 0 ∧
    (specAccel [bodyC, bodyD] 0).x = 3 ∧
    (specAccel [bodyC, bodyD] 0).x ≠ ((acceleration2 [bodyC, bodyD]).getD 0 default).a.x := by
  have hs : (specAccel [bodyC, bodyD] 0).x = 3 := by
    rw [(specAccel_pair_x bodyC bodyD).1]
    show (3 : ℝ) * (1 - 0) / (Real.sqrt ((1 - 0) ^ 2 + (0 - 0) ^ 2 + (0 - 0) ^ 2)) ^ 3 = 3
    norm_num
  refine ⟨acceleration2_ax _ 0, acceleration_ax _ 0, hs, ?_⟩
  rw [hs, acceleration2_ax _ 0]
  norm_num

/-- Claim C3 (code bug): `updatePositions` and `updateVelocities` loop
over `i in 1..3` only, so the x components are frozen: at a body with
unit x velocity and unit x acceleration, the position's x stays 0 even
though the claimed rule `r += dt·v + 0.5·dt²·a` would move it, the saved
`previous_acceleration` x stays 0 even though `a.x = 1`, and the
velocity's x stays 1 even though the claimed rule would change it. -/
theorem C3_leapfrog_skips_x :
    ((updatePositions [bodyF]).getD 0 default).r.x = 0 ∧
    ((updatePositions [bodyF]).getD 0 default).a0.x = 0 ∧
    bodyF.a.x = 1 ∧
    bodyF.r.x + dt * bodyF.v.x + 0.5 * dt * dt * bodyF.a.x ≠ bodyF.r.x ∧
    ((updateVelocities [bodyF]).getD 0 default).v.x = 1 ∧
    bodyF.v.x + 0.5 * dt * (bodyF.a0.x + bodyF.a.x) ≠ bodyF.v.x := by
  refine ⟨rfl, rfl, rfl, ?_, rfl, ?_⟩
  · show (0 : ℝ) + dt * 1 + 0.5 * dt * dt * 1 ≠ 0
    norm_num [dt]
  · show (1 : ℝ) + 0.5 * dt * (0 + 1) ≠ 1
    norm_num [dt]

/-- Claim C5 (code bug): for the spec's concrete two-body scenario
(masses 1 and 1 at (0,0,0) and (1,0,0), at rest) both force engines
return acceleration exactly (0,0,0) on both bodies — the separation is
purely along x, which the pair loops never write — while the specified
law expects x components 1 and −1. -/
theorem C5_concrete_two_body :
    ((acceleration [bodyA, bodyB]).getD 0 default).a = V3.zero ∧
    ((acceleration [bodyA, bodyB]).getD 1 default).a = V3.zero ∧
    ((acceleration2 [bodyA, bodyB]).getD 0 default).a = V3.zero ∧
    ((acceleration2 [bodyA, bodyB]).getD 1 default).a = V3.zero ∧
    (specAccel [bodyA, bodyB] 0).x = 1 ∧
    (specAccel [bodyA, bodyB] 1).x = -1 := by
  have hsmall := acceleration_small [bodyA, bodyB] (by norm_num [THREAD_COUNT])
  have h2 := acceleration2_two bodyA bodyB
  refine ⟨?_, ?_, ?_, ?_, ?_, ?_⟩
  · rw [hsmall]; rfl
  · rw [hsmall]; rfl
  · rw [h2]
    show (⟨0, 0 - bodyB.m * apreOf bodyA bodyB * (0 - 0),
      0 - bodyB.m * apreOf bodyA bodyB * (0 - 0)⟩ : V3) = V3.zero
    norm_num [V3.zero]
  · rw [h2]
    show (⟨0, 0 + bodyA.m * apreOf bodyA bodyB * (0 - 0),
      0 + bodyA.m * apreOf bodyA bodyB * (0 - 0)⟩ : V3) = V3.zero
    norm_num [V3.zero]
  · rw [(specAccel_pair_x bodyA bodyB).1]
    show (1 : ℝ) * (1 - 0) / (Real.sqrt ((1 - 0) ^ 2 + (0 - 0) ^ 2 + (0 - 0) ^ 2)) ^ 3 = 1
    norm_num
  · rw [(specAccel_pair_x bodyA bodyB).2]
    show (1 : ℝ) * (0 - 1) / (Real.sqrt ((0 - 1) ^ 2 + (0 - 0) ^ 2 + (0 - 0) ^ 2)) ^ 3 = -1
    norm_num

/-- Claim C6 (confirmed): on every non-degenerate two-body store the
acceleration either force engine computes for one body is the exact
negation of the other's scaled by the mass ratio, component by component.
(For the sequential engine this is the pair update itself; for the
threaded engine a two-body store falls outside every worker range and
both accelerations are zero, which also satisfies the relation.) -/
theorem C6_newton_third_law (b0 b1 : Star) (hr : b0.r ≠ b1.r)
    (h0 : b0.m ≠ 0) (h1 : b1.m ≠ 0) :
    (((acceleration2 [b0, b1]).getD 0 default).a.x =
        -(b1.m / b0.m) * ((acceleration2 [b0, b1]).getD 1 default).a.x ∧
      ((acceleration2 [b0, b1]).getD 0 default).a.y =
        -(b1.m / b0.m) * ((acceleration2 [b0, b1]).getD 1 default).a.y ∧
      ((acceleration2 [b0, b1]).getD 0 default).a.z =
        -(b1.m / b0.m) * ((acceleration2 [b0, b1]).getD 1 default).a.z) ∧
    (((acceleration2 [b0, b1]).getD 1 default).a.x =
        -(b0.m / b1.m) * ((acceleration2 [b0, b1]).getD 0 default).a.x ∧
      ((acceleration2 [b0, b1]).getD 1 default).a.y =
        -(b0.m / b1.m) * ((acceleration2 [b0, b1]).getD 0 default).a.y ∧
      ((acceleration2 [b0, b1]).getD 1 default).a.z =
        -(b0.m / b1.m) * ((acceleration2 [b0, b1]).getD 0 default).a.z) ∧
    (((acceleration [b0, b1]).getD 0 default).a.x =
        -(b1.m / b0.m) * ((acceleration [b0, b1]).getD 1 default).a.x ∧
      ((acceleration [b0, b1]).getD 0 default).a.y =
        -(b1.m / b0.m) * ((acceleration [b0, b1]).getD 1 default).a.y ∧
      ((acceleration [b0, b1]).getD 0 default).a.z =
        -(b1.m / b0.m) * ((acceleration [b0, b1]).getD 1 default).a.z) ∧
    (((acceleration [b0, b1]).getD 1 default).a.x =
        -(b0.m / b1.m) * ((acceleration [b0, b1]).getD 0 default).a.x ∧
      ((acceleration [b0, b1]).getD 1 default).a.y =
        -(b0.m / b1.m) * ((acceleration [b0, b1]).getD 0 default).a.y ∧
      ((acceleration [b0, b1]).getD 1 default).a.z =
        -(b0.m / b1.m) * ((acceleration [b0, b1]).getD 0 default).a.z) := by
  have h2 := acceleration2_two b0 b1
  have hsmall := acceleration_small [b0, b1] (by norm_num [THREAD_COUNT])
  rw [h2, hsmall]
  refine ⟨⟨?_, ?_, ?_⟩, ⟨?_, ?_, ?_⟩, ⟨?_, ?_, ?_⟩, ⟨?_, ?_, ?_⟩⟩
  · show (0 : ℝ) = -(b1.m / b0.m) * 0
    ring
  · show 0 - b1.m * apreOf b0 b1 * (rijOf b0 b1).y =
      -(b1.m / b0.m) * (0 + b0.m * apreOf b0 b1 * (rijOf b0 b1).y)
    field_simp
    ring
  · show 0 - b1.m * apreOf b0 b1 * (rijOf b0 b1).z =
      -(b1.m / b0.m) * (0 + b0.m * apreOf b0 b1 * (rijOf b0 b1).z)
    field_simp
    ring
  · show (0 : ℝ) = -(b0.m / b1.m) * 0
    ring
  · show 0 + b0.m * apreOf b0 b1 * (rijOf b0 b1).y =
      -(b0.m / b1.m) * (0 - b1.m * apreOf b0 b1 * (rijOf b0 b1).y)
    field_simp
    ring
  · show 0 + b0.m * apreOf b0 b1 * (rijOf b0 b1).z =
      -(b0.m / b1.m) * (0 - b1.m * apreOf b0 b1 * (rijOf b0 b1).z)
    field_simp
    ring
  · show (0 : ℝ) = -(b1.m / b0.m) * 0
    ring
  · show (0 : ℝ) = -(b1.m / b0.m) * 0
    ring
  · show (0 : ℝ) = -(b1.m / b0.m) * 0
    ring
  · show (0 : ℝ) = -(b0.m / b1.m) * 0
    ring
  · show (0 : ℝ) = -(b0.m / b1.m) * 0
    ring
  · show (0 : ℝ) = -(b0.m / b1.m) * 0
    ring

/-- Claim C6, witness: the two-body store with masses 1 and 2 at (0,0,0)
and (0,1,0) satisfies the hypotheses, and the y components obey the
mass-ratio-scaled negation. -/
theorem C6_newton_third_law_witness :
    (bodyA.r ≠ bodyE.r ∧ bodyA.m ≠ 0 ∧ bodyE.m ≠ 0) ∧
    ((acceleration2 [bodyA, bodyE]).getD 0 default).a.y =
      -(bodyE.m / bodyA.m) * ((acceleration2 [bodyA, bodyE]).getD 1 default).a.y := by
  have hr : bodyA.r ≠ bodyE.r := by
    intro h
    have hy : bodyA.r.y = bodyE.r.y := by rw [h]
    norm_num [bodyA, bodyE] at hy
  have h0 : bodyA.m ≠ 0 := by norm_num [bodyA]
  have h1 : bodyE.m ≠ 0 := by norm_num [bodyE]
  exact ⟨⟨hr, h0, h1⟩, (C6_newton_third_law bodyA bodyE hr h0 h1).1.2.1⟩

/-- Claim C7 (confirmed): the simulation phase computes the baseline
energy report once, from the initial pre-integration store `s0`, invokes
the force engine once before the loop, runs the loop `while t < tend`
(exactly 100 iterations for `dt = 1e-3`, `tend = 0.1`, independently of
the fuel bound), and emits a diagnostic exactly on every 10th step —
steps 10, 20, …, 100 — containing `t = k·dt`, the three energy entries of
the fresh report, and the relative drift against the baseline; no other
step emits a diagnostic. -/
theorem C7_driver_diagnostics (s0 : List Star) (g : ℕ) :
    mainSim (100 + g) s0 =
      (loopIter^[100] (acceleration s0),
       (List.range 10).map (fun p =>
         { t := ((10 * (p + 1) : ℕ) : ℝ) * dt
           Etot := (energies (loopIter^[10 * (p + 1)] (acceleration s0))).x
           Ekin := (energies (loopIter^[10 * (p + 1)] (acceleration s0))).y
           Epot := (energies (loopIter^[10 * (p + 1)] (acceleration s0))).z
           dE := ((energies (loopIter^[10 * (p + 1)] (acceleration s0))).x -
             (energies s0).x) / (energies s0).x })) := by
  unfold mainSim
  have h0 : (0 : ℝ) = ((0 : ℕ) : ℝ) * dt := by norm_num
  rw [h0, mainLoop_closed (energies s0) 10 0 (acceleration s0) [] (100 + g)
    (by norm_num) (by norm_num) (by omega)]
  rw [List.nil_append]
  refine congrArg₂ Prod.mk rfl ?_
  refine List.map_congr_left (fun p _ => ?_)
  rw [show 0 + 10 * (p + 1) = 10 * (p + 1) from by omega]
  rfl

/-- Claim C8 (confirmed): if some non-blank record has a non-numeric
token or fewer than 8 numeric fields, the parsing phase (and hence the
whole program, for any fuel) aborts with an error; if every record is
well-formed, parsing yields one body per non-blank record with mass from
field 2, position from fields 3–5 and velocity from fields 6–8. -/
theorem C8_parse_phase (lines : List (List Tok)) :
    ((∃ l ∈ lines, l ≠ [] ∧ (Tok.badTok ∈ l ∨ (numVals l).length < 8)) →
      ∃ e, parseInput lines = .error e ∧ ∀ fuel, mainProgram fuel lines = .error e) ∧
    ((∀ l ∈ lines, Tok.badTok ∉ l ∧ (l = [] ∨ 8 ≤ (numVals l).length)) →
      parseInput lines = .ok ((lines.filter (fun l => !l.isEmpty)).map starOfLine)) := by
  constructor
  · intro h
    obtain ⟨e, he⟩ := parseInput_err lines h
    refine ⟨e, he, fun fuel => ?_⟩
    unfold mainProgram
    rw [he]
    rfl
  · exact parseInput_ok lines

/-- The record `1 1 2 3 4 5 6 7` (identifier, mass, position, velocity). -/
def goodLine : List Tok :=
  [Tok.numTok 1, Tok.numTok 1, Tok.numTok 2, Tok.numTok 3, Tok.numTok 4,
   Tok.numTok 5, Tok.numTok 6, Tok.numTok 7]

/-- Claim C8, witness: one malformed input (a single non-numeric token)
makes the whole program abort, and one well-formed eight-field record
parses to the corresponding body. -/
theorem C8_parse_phase_witness :
    (∃ l ∈ [[Tok.badTok]], l ≠ [] ∧ (Tok.badTok ∈ l ∨ (numVals l).length < 8)) ∧
    (∃ e, parseInput [[Tok.badTok]] = .error e ∧
      ∀ fuel, mainProgram fuel [[Tok.badTok]] = .error e) ∧
    (∀ l ∈ [goodLine], Tok.badTok ∉ l ∧ (l = [] ∨ 8 ≤ (numVals l).length)) ∧
    parseInput [goodLine] =
      .ok (([goodLine].filter (fun l => !l.isEmpty)).map starOfLine) := by
  have hbad : ∃ l ∈ [[Tok.badTok]], l ≠ [] ∧
      (Tok.badTok ∈ l ∨ (numVals l).length < 8) := by
    refine ⟨[Tok.badTok], by simp, by simp, Or.inl (by simp)⟩
  have hgood : ∀ l ∈ [goodLine], Tok.badTok ∉ l ∧
      (l = [] ∨ 8 ≤ (numVals l).length) := by
    intro l hl
    rw [List.mem_singleton] at hl
    subst hl
    constructor
    · simp [goodLine]
    · right
      show 8 ≤ (numVals goodLine).length
      rfl
  exact ⟨hbad, (C8_parse_phase [[Tok.badTok]]).1 hbad, hgood,
    (C8_parse_phase [goodLine]).2 hgood⟩

end

end NBabel
